import Mathlib

/-!
Shallow embedding of the Event Reconciliation & Synchronization Pipeline
of the Economic-Google-Calendar repository.

The embedding models:
* the relational store of `events` rows (schema of
  `DatabaseService.ensure_events_table_exists`: `event_datetime TIMESTAMPTZ`,
  `summary TEXT`, `country`, `level INTEGER`, `gcal_event_id`, `is_synced`)
  as a list of `Row`s; a `TIMESTAMPTZ` value is a point in time, modelled as
  a `Nat` instant;
* `DatabaseService.insert_events_from_dataframe` (`INSERT .. ON CONFLICT
  (event_datetime, summary) DO NOTHING`, executed row by row by
  `cursor.executemany`) as a left fold of conditional inserts;
* `DatabaseService.get_unsynced_events` (`WHERE gcal_event_id IS NULL AND
  is_synced = FALSE AND level >= %s ORDER BY event_datetime ASC`) as a
  filter followed by an insertion sort on the datetime;
* `DatabaseService.mark_event_as_synced` (`UPDATE events SET gcal_event_id =
  %s, is_synced = TRUE WHERE event_datetime = %s AND summary = %s`) as a
  pointwise map, returning whether any row matched (`rows_updated > 0`);
* the legacy `utils/db_utils.get_unsynced_events` (string `level = '3'` or a
  case-insensitive substring match on the summary, no ORDER BY);
* `DatabaseConnection.__enter__` / `__exit__` of `utils/db_utils.py` as
  explicit action traces over an environment that prescribes the outcome of
  each connection attempt / of commit, rollback;
* `EventProcessor._clean_importance_level`, `_parse_datetime_columns`,
  `_remove_invalid_rows` and their composition `clean_and_transform`;
* `EconomicCalendarApp._sync_to_calendar` of `src/main.py` as a fold over
  the fetched events threading the store and the `sync_success` /
  `synced_count` variables.
-/

/-! ## The relational store -/

/-- A row of the `events` table created by
`DatabaseService.ensure_events_table_exists`.  `event_datetime` is a
`TIMESTAMPTZ`, i.e. an instant, modelled as a `Nat`. -/
structure Row where
  event_datetime : Nat
  summary : String
  country : String
  level : Int
  gcal_event_id : Option String
  is_synced : Bool
deriving DecidableEq, Repr

/-- The natural key `(event_datetime, summary)` of a row. -/
def Row.key (r : Row) : Nat × String := (r.event_datetime, r.summary)

/-- A freshly scraped event as handed to
`DatabaseService.insert_events_from_dataframe`: the insert lists the columns
`(event_datetime, summary, country, level)`; `gcal_event_id` stays NULL and
`is_synced` takes its FALSE default. -/
structure NewEvent where
  event_datetime : Nat
  summary : String
  country : String
  level : Int
deriving DecidableEq, Repr

/-- The stored row produced for a fresh event: `gcal_event_id` NULL,
`is_synced` FALSE (column defaults). -/
def NewEvent.toRow (e : NewEvent) : Row :=
  ⟨e.event_datetime, e.summary, e.country, e.level, none, false⟩

/-- One `INSERT .. ON CONFLICT (event_datetime, summary) DO NOTHING`:
if some stored row already carries the natural key, the statement is a
no-op, otherwise the row is appended. -/
def insertRow (store : List Row) (e : NewEvent) : List Row :=
  if store.any (fun r => r.event_datetime == e.event_datetime && r.summary == e.summary)
  then store
  else store ++ [e.toRow]

/-- `DatabaseService.insert_events_from_dataframe`, store effect:
`cursor.executemany` runs the single-row insert for each record of the
batch in order, inside one transaction. -/
def insertBatch (store : List Row) (events : List NewEvent) : List Row :=
  events.foldl insertRow store

/-- `DatabaseService.insert_events_from_dataframe`, return value: the
function returns `True` after an empty batch (`events_df.empty` early
return) and after a successful batch insert; the `False` branch covers
only infrastructure exceptions, which the pure embedding has none of. -/
def insert_events_from_dataframe (store : List Row) (events : List NewEvent) :
    List Row × Bool :=
  if events.isEmpty then (store, true) else (insertBatch store events, true)

/-- Does the store hold a row with the natural key of `e`? -/
def keyMem (store : List Row) (e : NewEvent) : Bool :=
  store.any (fun r => r.event_datetime == e.event_datetime && r.summary == e.summary)

/-! ## Selection of unsynced events -/

/-- The WHERE clause of `DatabaseService.get_unsynced_events`:
`gcal_event_id IS NULL AND is_synced = FALSE AND level >= %s`. -/
def unsyncedPred (min_importance_level : Int) (r : Row) : Bool :=
  r.gcal_event_id.isNone && !r.is_synced && decide (min_importance_level ≤ r.level)

/-- Row comparison used by `ORDER BY event_datetime ASC`. -/
def byDatetime (a b : Row) : Prop := a.event_datetime ≤ b.event_datetime

instance : DecidableRel byDatetime := fun _ _ => Nat.decLe _ _

instance : IsTotal Row byDatetime := ⟨fun _ _ => Nat.le_total _ _⟩

instance : IsTrans Row byDatetime := ⟨fun _ _ _ h h2 => Nat.le_trans h h2⟩

/-- `DatabaseService.get_unsynced_events`: SQL semantics of
`SELECT .. WHERE gcal_event_id IS NULL AND is_synced = FALSE AND
level >= %s ORDER BY event_datetime ASC` — keep the rows satisfying the
predicate and present them sorted ascending by `event_datetime`. -/
def get_unsynced_events (store : List Row) (min_importance_level : Int) : List Row :=
  List.insertionSort byDatetime (store.filter (unsyncedPred min_importance_level))

/-- Case-sensitive substring test on character lists: does the second list
contain the first as a contiguous run? -/
def hasSubAux (pat : List Char) : List Char → Bool
  | [] => pat.isEmpty
  | c :: cs => pat.isPrefixOf (c :: cs) || hasSubAux pat cs

/-- Character-wise lowercasing (`LOWER(..)` / `str.lower()` on the ASCII
text the pipeline handles). -/
def lowerChars (l : List Char) : List Char := l.map Char.toLower

/-- `LOWER(summary) LIKE '%pat%'`: case-insensitive substring containment. -/
def likeContains (s pat : String) : Bool :=
  hasSubAux (lowerChars pat.toList) (lowerChars s.toList)

/-- `str.strip()`: remove leading and trailing whitespace. -/
def trimChars (l : List Char) : List Char :=
  ((l.dropWhile Char.isWhitespace).reverse.dropWhile Char.isWhitespace).reverse

/-- A row of the legacy `economic_events` table of `utils/db_utils.py`
(its `level` column is a VARCHAR; it has no `is_synced` column). -/
structure LegacyRow where
  event_datetime : Nat
  summary : String
  country : String
  level : String
  gcal_event_id : Option String
deriving DecidableEq, Repr

/-- The legacy `utils/db_utils.get_unsynced_events`: `WHERE gcal_event_id IS
NULL AND (level = '3' OR LOWER(summary) LIKE '%initial jobless claims%' OR
LOWER(summary) LIKE '%gdp growth rate%' OR LOWER(summary) LIKE
'%core pce price index mom%')`, with no ORDER BY and no level parameter. -/
def legacy_get_unsynced_events (store : List LegacyRow) : List LegacyRow :=
  store.filter (fun r =>
    r.gcal_event_id.isNone &&
      (r.level == "3"
        || likeContains r.summary "initial jobless claims"
        || likeContains r.summary "gdp growth rate"
        || likeContains r.summary "core pce price index mom"))

/-- The claim's selection predicate, written from the spec's words
(`external_id IS NULL` AND (`level >= min_level` OR the summary matches one
of the fixed high-value-indicator substrings, case-insensitively)) — to be
compared with the source's `unsyncedPred`. -/
def claimedUnsyncedPred (min_level : Int) (r : Row) : Bool :=
  r.gcal_event_id.isNone &&
    (decide (min_level ≤ r.level)
      || likeContains r.summary "initial jobless claims"
      || likeContains r.summary "gdp growth rate"
      || likeContains r.summary "core pce price index mom")

/-! ## Marking events synced -/

/-- `DatabaseService.mark_event_as_synced`: the UPDATE sets
`gcal_event_id` and `is_synced = TRUE` on the rows whose
`(event_datetime, summary)` equals the given key; the function returns
`rows_updated > 0`. -/
def mark_event_as_synced (store : List Row) (event_datetime : Nat)
    (summary : String) (gcal_event_id : String) : List Row × Bool :=
  let store' := store.map (fun r =>
    if r.event_datetime == event_datetime && r.summary == summary
    then { r with gcal_event_id := some gcal_event_id, is_synced := true }
    else r)
  (store', store.any (fun r => r.event_datetime == event_datetime && r.summary == summary))

/-! ## Connection lifecycle (`utils/db_utils.DatabaseConnection`) -/

/-- What one call to `psycopg2.connect` does, prescribed per attempt number
by the environment: either a connection value or an
`OperationalError`.  `C` is the connection type, `E` the error type. -/
inductive AttemptOutcome (E C : Type) where
  | ok : C → AttemptOutcome E C
  | operationalError : E → AttemptOutcome E C
deriving DecidableEq, Repr

/-- Observable actions of `DatabaseConnection.__enter__`. -/
inductive ConnAction where
  | attemptConnect : Nat → ConnAction
  | sleep : Nat → ConnAction
deriving DecidableEq, Repr

/-- Result of `DatabaseConnection.__enter__`: a connection, a propagated
`OperationalError`, or Python's implicit `None` when the `for` loop body
never runs (`max_retries < 1`). -/
inductive EnterResult (E C : Type) where
  | conn : C → EnterResult E C
  | raised : E → EnterResult E C
  | noneValue : EnterResult E C
deriving DecidableEq, Repr

/-- The body of the `for attempt in range(1, max_retries + 1)` loop of
`DatabaseConnection.__enter__`, by recursion on the number of remaining
iterations: a successful attempt returns the connection; a failed final
attempt re-raises (`if attempt == self.max_retries: raise`); a failed
non-final attempt sleeps `wait_seconds` and continues. -/
def enterLoop (outcome : Nat → AttemptOutcome E C) (wait : Nat) :
    (attempt remaining : Nat) → EnterResult E C × List ConnAction
  | _, 0 => (EnterResult.noneValue, [])
  | attempt, remaining + 1 =>
    match outcome attempt with
    | AttemptOutcome.ok c => (EnterResult.conn c, [ConnAction.attemptConnect attempt])
    | AttemptOutcome.operationalError e =>
      match remaining with
      | 0 => (EnterResult.raised e, [ConnAction.attemptConnect attempt])
      | r + 1 =>
        let p := enterLoop outcome wait (attempt + 1) (r + 1)
        (p.1, ConnAction.attemptConnect attempt :: ConnAction.sleep wait :: p.2)

/-- `DatabaseConnection.__enter__`: attempts are numbered `1, ...,
max_retries`; `range(1, max_retries + 1)` is empty when `max_retries < 1`
(`Int.toNat` sends negatives to `0`). -/
def dbEnter (max_retries : Int) (wait_seconds : Nat)
    (outcome : Nat → AttemptOutcome E C) : EnterResult E C × List ConnAction :=
  enterLoop outcome wait_seconds 1 max_retries.toNat

/-- Observable actions of `DatabaseConnection.__exit__` on the held
connection. -/
inductive ExitAction where
  | rollback
  | commit
  | close
deriving DecidableEq, Repr

/-- `DatabaseConnection.__exit__`: when a connection is held, exceptional
exit calls `rollback()`, non-exceptional exit calls `commit()`, and then
`close()` runs — with no `try/finally`, so an exception raised by the
commit/rollback call itself propagates before `close()` is reached.
Returns the trace of calls and whether the exit itself raised. -/
def dbExit (hasConn excType commitRaises rollbackRaises : Bool) :
    List ExitAction × Bool :=
  if hasConn then
    if excType then
      if rollbackRaises then ([ExitAction.rollback], true)
      else ([ExitAction.rollback, ExitAction.close], false)
    else
      if commitRaises then ([ExitAction.commit], true)
      else ([ExitAction.commit, ExitAction.close], false)
  else ([], false)

/-- Number of connection attempts in a trace. -/
def countAttempts : List ConnAction → Nat
  | [] => 0
  | ConnAction.attemptConnect _ :: tr => countAttempts tr + 1
  | ConnAction.sleep _ :: tr => countAttempts tr

/-- Number of sleeps in a trace. -/
def countSleeps : List ConnAction → Nat
  | [] => 0
  | ConnAction.attemptConnect _ :: tr => countSleeps tr
  | ConnAction.sleep _ :: tr => countSleeps tr + 1

/-! ## Event processor (`processors/event_processor.py`) -/

/-- A raw scraped record, columns `["date", "time", "country", "level",
"summary"]` (`EventProcessor.raw_events_to_dataframe`). -/
structure RawEvent where
  date : String
  time : String
  country : String
  level : String
  summary : String
deriving DecidableEq, Repr

/-- Value of a nonempty all-digit character run. -/
def digitsVal (l : List Char) : Nat :=
  l.foldl (fun acc c => acc * 10 + (c.toNat - ('0').toNat)) 0

/-- Decimal parse of a character run: nonempty, digits only. -/
def charsToNat? (l : List Char) : Option Nat :=
  if !l.isEmpty && l.all Char.isDigit then some (digitsVal l) else none

/-- Python's `int(..)` conversion on the labels the scraper produces: an
optional minus sign followed by digits.  (Python's further liberality —
surrounding whitespace, `+`, `_` digit grouping — is outside the label
alphabet and not modelled.) -/
def charsToInt? : List Char → Option Int
  | '-' :: rest => (charsToNat? rest).map (fun n => -(n : Int))
  | l => (charsToNat? l).map Int.ofNat

/-- `str.split(sep)` on character lists, fuelled structural recursion:
at each position either the separator matches (emit the accumulated piece
and skip the separator) or the head character joins the current piece. -/
def splitGo (sep : List Char) : Nat → List Char → List Char → List (List Char)
  | 0, rest, acc => [acc.reverse ++ rest]
  | _ + 1, [], acc => [acc.reverse]
  | fuel + 1, c :: cs, acc =>
    if sep.isPrefixOf (c :: cs) then
      acc.reverse :: splitGo sep fuel ((c :: cs).drop sep.length) []
    else splitGo sep fuel cs (c :: acc)

/-- `str.split(sep)` for a nonempty separator. -/
def splitOnChars (l sep : List Char) : List (List Char) :=
  splitGo sep l.length l []

/-- Per-label step of `_clean_importance_level`:
`str.split("calendar-date-").str[-1].astype(int)` — the piece after the
last occurrence of `"calendar-date-"` (the whole string when the marker is
absent), converted to an integer, `none` when the conversion raises. -/
def parseLevelLabel (s : String) : Option Int :=
  charsToInt?
    ((splitOnChars s.toList ("calendar-date-".toList)).getLast?.getD [])

/-- All-or-nothing column conversion: the value list when every element
converts, `none` as soon as one raises. -/
def mapOption (f : α → Option β) : List α → Option (List β)
  | [] => some []
  | a :: as =>
    match f a, mapOption f as with
    | some b, some bs => some (b :: bs)
    | _, _ => none

/-- `EventProcessor._clean_importance_level`: the conversion runs on the
whole column inside one `try`; if conversion fails for any label the
`except` branch sets every row's level to `0`. -/
def clean_importance_level (labels : List String) : List Int :=
  match mapOption parseLevelLabel labels with
  | some levels => levels
  | none => labels.map (fun _ => 0)

/-- A parsed event timestamp.  The source attaches the fixed `UTC` label
(`tz_localize('UTC')`) to every timestamp, so the zone carries no
information and is not stored. -/
structure EventDateTime where
  year : Nat
  month : Nat
  day : Nat
  hour : Nat
  minute : Nat
deriving DecidableEq, Repr

/-- Names accepted by `strptime`'s `%A` directive (case-insensitive). -/
def weekdayNames : List (List Char) :=
  ["monday", "tuesday", "wednesday", "thursday", "friday", "saturday",
   "sunday"].map String.toList

/-- Names accepted by `strptime`'s `%B` directive (case-insensitive). -/
def monthNames : List (List Char) :=
  ["january", "february", "march", "april", "may", "june", "july",
   "august", "september", "october", "november", "december"].map String.toList

/-- Index of a character run in a list of runs, or `none`. -/
def indexIn (x : List Char) : List (List Char) → Option Nat
  | [] => none
  | y :: ys => if x == y then some 0 else (indexIn x ys).map (· + 1)

/-- Gregorian month length, as validated by `datetime.date`. -/
def daysInMonth (y m : Nat) : Nat :=
  if m = 2 then (if (y % 4 = 0 && !(y % 100 = 0)) || y % 400 = 0 then 29 else 28)
  else if m = 4 || m = 6 || m = 9 || m = 11 then 30 else 31

/-- `strptime`'s `%d`: one or two digits, value 1–31. -/
def parseDay (s : List Char) : Option Nat :=
  if s.length = 1 || s.length = 2 then
    match charsToNat? s with
    | some d => if 1 ≤ d && d ≤ 31 then some d else none
    | none => none
  else none

/-- `strptime`'s `%Y`: exactly four digits. -/
def parseYear (s : List Char) : Option Nat :=
  if s.length = 4 then charsToNat? s else none

/-- `pd.to_datetime(.., format='%A %B %d %Y')` on one label, e.g.
`"Friday February 16 2026"`: weekday name, month name, day, year separated
by single spaces; the weekday is matched but not cross-checked against the
date; the day must exist in the month. -/
def parse_date (s : String) : Option (Nat × Nat × Nat) :=
  match splitOnChars s.toList [' '] with
  | [w, mo, d, y] =>
    if weekdayNames.contains (lowerChars w) then
      match indexIn (lowerChars mo) monthNames, parseDay d, parseYear y with
      | some mi, some dd, some yy =>
        if dd ≤ daysInMonth yy (mi + 1) then some (yy, mi + 1, dd) else none
      | _, _, _ => none
    else none
  | _ => none

/-- `pd.to_datetime(.., format='%I:%M %p', errors='coerce')` on one label,
e.g. `"8:30 AM"`: 12-hour clock with meridiem, converted to (hour,
minute) of the 24-hour clock; `none` for anything unparseable. -/
def parse_time (s : String) : Option (Nat × Nat) :=
  match splitOnChars s.toList [' '] with
  | [hm, ap] =>
    match splitOnChars hm [':'] with
    | [h, m] =>
      match charsToNat? h, charsToNat? m with
      | some hh, some mm =>
        if 1 ≤ hh && hh ≤ 12 && h.length ≤ 2 && mm ≤ 59 && m.length ≤ 2 then
          if lowerChars ap == "am".toList then some (hh % 12, mm)
          else if lowerChars ap == "pm".toList then some (hh % 12 + 12, mm)
          else none
        else none
      | _, _ => none
    | _ => none
  | _ => none

/-- `EventProcessor._parse_datetime_columns`: the date column is parsed in
one `pd.to_datetime` call that raises on the first bad label, in which
case the `except` branch assigns `pd.Timestamp.now(tz=UTC)` to every
row's `event_datetime`; otherwise each row combines its parsed date with
its parsed time (`errors='coerce'`, unparseable or empty time → midnight
via `fillna(time(0, 0))`). -/
def parse_datetime_columns (now : EventDateTime) (rows : List RawEvent) :
    List EventDateTime :=
  match mapOption (fun r => parse_date r.date) rows with
  | some dates =>
    List.zipWith
      (fun (ymd : Nat × Nat × Nat) (r : RawEvent) =>
        let t := (parse_time r.time).getD (0, 0)
        ⟨ymd.1, ymd.2.1, ymd.2.2, t.1, t.2⟩)
      dates rows
  | none => rows.map (fun _ => now)

/-- A processed event row after `clean_and_transform`: the raw `date` and
`time` columns survive alongside the computed `level` and
`event_datetime`. -/
structure PEvent where
  date : String
  time : String
  country : String
  level : Int
  summary : String
  event_datetime : EventDateTime
deriving DecidableEq, Repr

/-- `EventProcessor._remove_invalid_rows`, combined with the preceding
`replace("", np.nan)` of `clean_and_transform`: `dropna(subset=['summary'])`
drops the summaries that `replace` turned into NaN (the empty ones),
`df[df['summary'].str.strip() != '']` drops the whitespace-only ones —
together: keep a row iff its trimmed summary is nonempty.
`dropna(subset=['event_datetime'])` drops nothing because
`_parse_datetime_columns` assigns a datetime to every row on both of its
paths. -/
def remove_invalid_rows (events : List PEvent) : List PEvent :=
  events.filter (fun e => !(trimChars e.summary.toList).isEmpty)

/-- `EventProcessor.clean_and_transform`: empty input short-circuits;
otherwise clean the level column, build the datetime column, and drop the
invalid rows. -/
def clean_and_transform (now : EventDateTime) (rows : List RawEvent) :
    List PEvent :=
  if rows.isEmpty then []
  else
    remove_invalid_rows
      (List.zipWith
        (fun r (p : Int × EventDateTime) =>
          { date := r.date, time := r.time, country := r.country,
            level := p.1, summary := r.summary, event_datetime := p.2 })
        rows
        ((clean_importance_level (rows.map (·.level))).zip
          (parse_datetime_columns now rows)))

/-! ## Sync reconciler (`EconomicCalendarApp._sync_to_calendar`) -/

/-- Behaviour of `CalendarService.create_event` for one event, prescribed
by the environment: a returned value (`Optional[str]`) or a raised
exception (caught by the loop's `except`). -/
inductive CreateOutcome where
  | ok : Option String → CreateOutcome
  | raised : CreateOutcome
deriving DecidableEq, Repr

/-- Python truthiness of the returned `gcal_event_id`: `None` and `""` are
falsy. -/
def pyTruthy (o : Option String) : Bool :=
  match o with
  | some s => !(s == "")
  | none => false

/-- The loop state of `_sync_to_calendar`: the store being updated through
`mark_event_as_synced`, plus the local variables `sync_success` and
`synced_count`. -/
structure SyncState where
  store : List Row
  sync_success : Bool
  synced_count : Nat
deriving DecidableEq, Repr

/-- One iteration of the `for _, event in unsynced_events.iterrows()` loop:
call `create_event`; on a truthy identifier call `mark_event_as_synced`
and bump `synced_count` on success or clear `sync_success` on failure; on
a falsy identifier or a raised exception clear `sync_success`; always fall
through to the next event. -/
def syncStep (create : Row → CreateOutcome) (st : SyncState) (event : Row) :
    SyncState :=
  match create event with
  | CreateOutcome.raised => { st with sync_success := false }
  | CreateOutcome.ok gid =>
    if pyTruthy gid then
      let p := mark_event_as_synced st.store event.event_datetime event.summary
        (gid.getD "")
      if p.2 then
        { st with store := p.1, synced_count := st.synced_count + 1 }
      else
        { st with store := p.1, sync_success := false }
    else { st with sync_success := false }

/-- The event loop of `_sync_to_calendar` over the fetched unsynced
events, starting from `sync_success = True`, `synced_count = 0`. -/
def syncLoop (create : Row → CreateOutcome) (store : List Row)
    (events : List Row) : SyncState :=
  events.foldl (syncStep create) ⟨store, true, 0⟩

/-- `EconomicCalendarApp._sync_to_calendar`: fetch the unsynced events at
the configured importance threshold; an empty fetch returns `True`
untouched; otherwise run the loop and return its `sync_success`.  (The
`test_connection` guard concerns only the external adapter and is assumed
to pass in the pure embedding.) -/
def sync_to_calendar (create : Row → CreateOutcome) (store : List Row)
    (min_importance_level : Int) : SyncState × Bool :=
  let events := get_unsynced_events store min_importance_level
  if events.isEmpty then (⟨store, true, 0⟩, true)
  else
    let st := syncLoop create store events
    (st, st.sync_success)

/-- Three stored unsynced level-3 events, as in the spec's reconciler
scenario. -/
def demoStore : List Row :=
  [⟨1, "E1", "US", 3, none, false⟩, ⟨2, "E2", "US", 3, none, false⟩,
   ⟨3, "E3", "US", 3, none, false⟩]

/-- Calendar environment whose create call raises exactly for the second
event. -/
def createFailSecond : Row → CreateOutcome :=
  fun r => if r.event_datetime == 2 then CreateOutcome.raised
    else CreateOutcome.ok (some "gid")

/-- Calendar environment whose create call raises for the second and third
events. -/
def createFailSecondThird : Row → CreateOutcome :=
  fun r => if r.event_datetime == 1 then CreateOutcome.ok (some "gid")
    else CreateOutcome.raised

/-! ## Store lemmas -/

theorem insertRow_eq (store : List Row) (e : NewEvent) :
    insertRow store e = if keyMem store e then store else store ++ [e.toRow] := rfl

theorem keyMem_toRow (store : List Row) (e : NewEvent) :
    keyMem (store ++ [e.toRow]) e := by
  simp [keyMem, List.any_append, NewEvent.toRow]

theorem keyMem_insertRow_mono (store : List Row) (x e : NewEvent)
    (h : keyMem store e) : keyMem (insertRow store x) e := by
  unfold insertRow
  split
  · exact h
  · simp only [keyMem, List.any_append, Bool.or_eq_true] at h ⊢
    exact Or.inl h

theorem keyMem_insertRow_self (store : List Row) (e : NewEvent) :
    keyMem (insertRow store e) e := by
  unfold insertRow
  split
  · exact ‹keyMem store e = true›
  · exact keyMem_toRow store e

theorem keyMem_insertBatch_mono (events : List NewEvent) (store : List Row)
    (e : NewEvent) (h : keyMem store e) : keyMem (insertBatch store events) e := by
  induction events generalizing store with
  | nil => exact h
  | cons x xs ih => exact ih (insertRow store x) (keyMem_insertRow_mono store x e h)

theorem keyMem_insertBatch_self (events : List NewEvent) (store : List Row)
    (e : NewEvent) (h : e ∈ events) : keyMem (insertBatch store events) e := by
  induction events generalizing store with
  | nil => cases h
  | cons x xs ih =>
    rcases List.mem_cons.mp h with h1 | h2
    · subst h1
      exact keyMem_insertBatch_mono xs (insertRow store e) e
        (keyMem_insertRow_self store e)
    · exact ih (insertRow store x) h2

theorem insertBatch_of_all_mem (events : List NewEvent) (store : List Row)
    (h : ∀ e ∈ events, keyMem store e) : insertBatch store events = store := by
  induction events with
  | nil => rfl
  | cons x xs ih =>
    have hx : keyMem store x := h x (List.mem_cons_self x xs)
    have hrow : insertRow store x = store := by simp [insertRow, keyMem] at hx ⊢; exact hx
    show insertBatch (insertRow store x) xs = store
    rw [hrow]
    exact ih (fun e he => h e (List.mem_cons_of_mem x he))

/-- Re-running an identical batch is a no-op: every key of the batch is
already present after the first run. -/
theorem insertBatch_idem (store : List Row) (events : List NewEvent) :
    insertBatch (insertBatch store events) events = insertBatch store events :=
  insertBatch_of_all_mem events (insertBatch store events)
    (fun e he => keyMem_insertBatch_self events store e he)

/-- No duplicate natural key is ever created: inserting preserves
key-uniqueness of the stored rows. -/
theorem insertRow_nodup (store : List Row) (e : NewEvent)
    (h : (store.map Row.key).Nodup) : ((insertRow store e).map Row.key).Nodup := by
  unfold insertRow
  split
  · exact h
  · rename_i hnone
    rw [List.map_append]
    simp only [List.map, NewEvent.toRow, Row.key]
    rw [List.nodup_append]
    refine ⟨h, List.nodup_singleton _, ?_⟩
    intro k hk hk2
    simp only [List.mem_singleton] at hk2
    subst hk2
    rcases List.mem_map.mp hk with ⟨r, hr, hkey⟩
    have : store.any (fun r => r.event_datetime == e.event_datetime
        && r.summary == e.summary) = true := by
      rw [List.any_eq_true]
      refine ⟨r, hr, ?_⟩
      have h1 : r.event_datetime = e.event_datetime := congrArg Prod.fst hkey
      have h2 : r.summary = e.summary := congrArg Prod.snd hkey
      simp [h1, h2]
    simp [this] at hnone

theorem insertBatch_nodup (events : List NewEvent) (store : List Row)
    (h : (store.map Row.key).Nodup) : ((insertBatch store events).map Row.key).Nodup := by
  induction events generalizing store with
  | nil => exact h
  | cons x xs ih => exact ih (insertRow store x) (insertRow_nodup store x h)

/-! ## Claim theorems: durable store -/

/-- C1 (counterexample): an unsynced event with `level = 2` and summary
`"Initial Jobless Claims"` satisfies the claim's selection predicate
(`external_id IS NULL` and a high-value-indicator substring match), yet
`DatabaseService.get_unsynced_events` at `min_importance_level = 3`
returns nothing: its WHERE clause has no substring alternative. -/
theorem C1_counterexample :
    claimedUnsyncedPred 3 ⟨100, "Initial Jobless Claims", "US", 2, none, false⟩ = true
    ∧ get_unsynced_events
        [⟨100, "Initial Jobless Claims", "US", 2, none, false⟩] 3 = [] := by
  decide

/-- C1 (amended): `DatabaseService.get_unsynced_events` returns exactly the
stored events with `gcal_event_id` NULL, `is_synced` FALSE and
`level ≥ min_importance_level`, ordered ascending by `event_datetime`; it
has no high-value-indicator substring alternative, so an event with
`level = 2` and summary `"Initial Jobless Claims"` is not selected (that
rule lives only in the legacy `db_utils.get_unsynced_events`, which does
select such an event), and an event with `level = 1` and an unrelated
summary is not selected. -/
theorem C1_amended_select (store : List Row) (min_importance_level : Int) :
    (∀ r, r ∈ get_unsynced_events store min_importance_level ↔
      r ∈ store ∧ unsyncedPred min_importance_level r = true)
    ∧ List.Sorted byDatetime (get_unsynced_events store min_importance_level)
    ∧ get_unsynced_events
        [⟨100, "Initial Jobless Claims", "US", 2, none, false⟩] 3 = []
    ∧ legacy_get_unsynced_events
        [⟨100, "Initial Jobless Claims", "US", "2", none⟩]
      = [⟨100, "Initial Jobless Claims", "US", "2", none⟩]
    ∧ get_unsynced_events [⟨100, "Building Permits", "US", 1, none, false⟩] 3 = [] := by
  refine ⟨?_, List.sorted_insertionSort _ _, by decide, by decide, by decide⟩
  intro r
  simp only [get_unsynced_events]
  rw [List.Perm.mem_iff (List.perm_insertionSort _ _), List.mem_filter]

/-- C2: ingestion is idempotent on the natural key — running the batch
insert twice with the same batch leaves the same rows as running it once,
a batch row whose `(event_datetime, summary)` already exists is skipped,
and key-uniqueness of the store is preserved. -/
theorem C2_idempotent_ingestion (store : List Row) (events : List NewEvent) :
    (insert_events_from_dataframe
        (insert_events_from_dataframe store events).1 events).1
      = (insert_events_from_dataframe store events).1
    ∧ (∀ e ∈ events, keyMem store e = true → insertRow store e = store)
    ∧ ((store.map Row.key).Nodup →
        (((insert_events_from_dataframe store events).1).map Row.key).Nodup) := by
  refine ⟨?_, ?_, ?_⟩
  · by_cases h : events.isEmpty
    · simp [insert_events_from_dataframe, h]
    · simp [insert_events_from_dataframe, h, insertBatch_idem]
  · intro e _ hk
    simp [insertRow_eq, hk]
  · intro hnd
    by_cases h : events.isEmpty
    · simpa [insert_events_from_dataframe, h] using hnd
    · simpa [insert_events_from_dataframe, h] using insertBatch_nodup events store hnd

/-- Witness for C2 at a concrete batch: the one-row scrape of the spec's
scenario, ingested twice into an empty store, is stored once. -/
theorem C2_witness :
    ((insert_events_from_dataframe
        (insert_events_from_dataframe [] [⟨1, "Initial Jobless Claims", "US", 3⟩]).1
        [⟨1, "Initial Jobless Claims", "US", 3⟩]).1
      = (insert_events_from_dataframe [] [⟨1, "Initial Jobless Claims", "US", 3⟩]).1)
    ∧ (((insert_events_from_dataframe [] [⟨1, "Initial Jobless Claims", "US", 3⟩]).1).map
        Row.key).Nodup
    ∧ (insert_events_from_dataframe [] [⟨1, "Initial Jobless Claims", "US", 3⟩]).1.length
      = 1 :=
  ⟨(C2_idempotent_ingestion [] [⟨1, "Initial Jobless Claims", "US", 3⟩]).1,
   (C2_idempotent_ingestion [] [⟨1, "Initial Jobless Claims", "US", 3⟩]).2.2 (by decide),
   by decide⟩

/-- C4 (counterexample): `DatabaseService.insert_events_from_dataframe`
does not return the count of rows actually inserted — a run that inserts
two rows and a run that inserts zero both return the same value `True`. -/
theorem C4_counterexample :
    (insert_events_from_dataframe []
        [⟨1, "A", "US", 3⟩, ⟨2, "B", "US", 2⟩]).2 = true
    ∧ (insert_events_from_dataframe [NewEvent.toRow ⟨1, "A", "US", 3⟩]
        [⟨1, "A", "US", 3⟩]).2 = true
    ∧ (insert_events_from_dataframe []
        [⟨1, "A", "US", 3⟩, ⟨2, "B", "US", 2⟩]).1.length = 2
    ∧ (insert_events_from_dataframe [NewEvent.toRow ⟨1, "A", "US", 3⟩]
        [⟨1, "A", "US", 3⟩]).1.length = 1 := by
  decide

/-- C4 (amended): the batch insert returns the success boolean `True`
(the inserted-row count is logged, not returned); rows violating the
uniqueness constraint are silently skipped — a batch made only of
already-present keys leaves the store unchanged — and a zero-event batch
is a no-op that returns success. -/
theorem C4_amended_returns_success (store : List Row) (events : List NewEvent) :
    (insert_events_from_dataframe store events).2 = true
    ∧ (events.isEmpty = true → (insert_events_from_dataframe store events).1 = store)
    ∧ ((∀ e ∈ events, keyMem store e = true) →
        (insert_events_from_dataframe store events).1 = store) := by
  refine ⟨?_, ?_, ?_⟩
  · by_cases h : events.isEmpty <;> simp [insert_events_from_dataframe, h]
  · intro h
    simp [insert_events_from_dataframe, h]
  · intro h
    by_cases he : events.isEmpty
    · simp [insert_events_from_dataframe, he]
    · simp [insert_events_from_dataframe, he, insertBatch_of_all_mem events store h]

/-- Witness for C4 at concrete inputs: the empty batch and an
all-conflicting batch both return success and leave the store as it was. -/
theorem C4_witness :
    (insert_events_from_dataframe [NewEvent.toRow ⟨1, "A", "US", 3⟩] []).2 = true
    ∧ (insert_events_from_dataframe [NewEvent.toRow ⟨1, "A", "US", 3⟩] []).1
      = [NewEvent.toRow ⟨1, "A", "US", 3⟩]
    ∧ (insert_events_from_dataframe [NewEvent.toRow ⟨1, "A", "US", 3⟩]
        [⟨1, "A", "US", 3⟩]).1 = [NewEvent.toRow ⟨1, "A", "US", 3⟩] :=
  ⟨(C4_amended_returns_success [NewEvent.toRow ⟨1, "A", "US", 3⟩] []).1,
   (C4_amended_returns_success [NewEvent.toRow ⟨1, "A", "US", 3⟩] []).2.1 (by decide),
   (C4_amended_returns_success [NewEvent.toRow ⟨1, "A", "US", 3⟩]
      [⟨1, "A", "US", 3⟩]).2.2 (by decide)⟩

/-- C9: `mark_event_as_synced` updates exactly the rows carrying the given
`(event_datetime, summary)` natural key (in place — length and order
preserved), returns whether some row was updated, and on a missing key
returns `false` leaving the store unchanged. -/
theorem C9_mark_synced (store : List Row) (dt : Nat) (summ gid : String) :
    ((mark_event_as_synced store dt summ gid).2 = true ↔
      ∃ r ∈ store, r.event_datetime = dt ∧ r.summary = summ)
    ∧ (∀ (i : Nat) (r : Row), store[i]? = some r →
        (mark_event_as_synced store dt summ gid).1[i]? = some
          (if r.event_datetime = dt ∧ r.summary = summ
            then { r with gcal_event_id := some gid, is_synced := true }
            else r))
    ∧ ((mark_event_as_synced store dt summ gid).2 = false →
        (mark_event_as_synced store dt summ gid).1 = store) := by
  refine ⟨?_, ?_, ?_⟩
  · simp only [mark_event_as_synced, List.any_eq_true, Bool.and_eq_true, beq_iff_eq]
  · intro i r hi
    simp only [mark_event_as_synced, List.getElem?_map, hi, Option.map_some]
    by_cases h : r.event_datetime = dt ∧ r.summary = summ
    · simp [h.1, h.2]
    · have : (r.event_datetime == dt && r.summary == summ) = false := by
        rcases Decidable.not_and_iff_or_not.mp h with h1 | h1 <;> simp [h1]
      simp [this, h]
  · intro h2
    simp only [mark_event_as_synced, List.any_eq_false] at h2
    simp only [mark_event_as_synced]
    have hcong : store.map (fun r =>
          if r.event_datetime == dt && r.summary == summ
          then { r with gcal_event_id := some gid, is_synced := true } else r)
        = store.map id :=
      List.map_congr_left (fun r hr => by simp [h2 r hr])
    simpa using hcong

/-- Witness for C9 at a concrete key: marking an absent key reports no row
updated and changes nothing; the matching row of a two-row store gets its
`gcal_event_id` set. -/
theorem C9_witness :
    ((mark_event_as_synced [⟨1, "GDP", "US", 3, none, false⟩] 2 "CPI" "g1").2 = false →
      (mark_event_as_synced [⟨1, "GDP", "US", 3, none, false⟩] 2 "CPI" "g1").1
        = [⟨1, "GDP", "US", 3, none, false⟩])
    ∧ (mark_event_as_synced [⟨1, "GDP", "US", 3, none, false⟩] 2 "CPI" "g1").1
        = [⟨1, "GDP", "US", 3, none, false⟩]
    ∧ (mark_event_as_synced [⟨1, "GDP", "US", 3, none, false⟩] 1 "GDP" "g1").1[0]?
        = some ⟨1, "GDP", "US", 3, some "g1", true⟩ := by
  refine ⟨(C9_mark_synced [⟨1, "GDP", "US", 3, none, false⟩] 2 "CPI" "g1").2.2, ?_, ?_⟩
  · exact (C9_mark_synced [⟨1, "GDP", "US", 3, none, false⟩] 2 "CPI" "g1").2.2 (by decide)
  · have h := (C9_mark_synced [⟨1, "GDP", "US", 3, none, false⟩] 1 "GDP" "g1").2.1 0
      ⟨1, "GDP", "US", 3, none, false⟩ (by decide)
    simpa using h

/-! ## Claim theorems: connection lifecycle -/

/-- C3 (counterexample): on a non-exceptional exit whose `commit()` itself
raises, `DatabaseConnection.__exit__` never reaches `self.conn.close()` —
the connection is closed zero times, not exactly once. -/
theorem C3_counterexample :
    (dbExit true false true false).1.count ExitAction.close = 0
    ∧ (dbExit true false true false).2 = true := by
  decide

/-- C3 (amended): with a held connection, non-exceptional exit commits and
exceptional exit rolls back; when the chosen finaliser does not raise the
connection is closed exactly once, but when `commit`/`rollback` itself
raises, the exception propagates and `close()` is never called. -/
theorem C3_amended_exit (excType commitRaises rollbackRaises : Bool) :
    (excType = false →
      (dbExit true excType commitRaises rollbackRaises).1.head? = some ExitAction.commit)
    ∧ (excType = true →
      (dbExit true excType commitRaises rollbackRaises).1.head? = some ExitAction.rollback)
    ∧ ((dbExit true excType commitRaises rollbackRaises).2
        = (if excType then rollbackRaises else commitRaises))
    ∧ ((dbExit true excType commitRaises rollbackRaises).2 = false →
      (dbExit true excType commitRaises rollbackRaises).1.count ExitAction.close = 1)
    ∧ ((dbExit true excType commitRaises rollbackRaises).2 = true →
      (dbExit true excType commitRaises rollbackRaises).1.count ExitAction.close = 0)
    ∧ dbExit false excType commitRaises rollbackRaises = ([], false) := by
  cases excType <;> cases commitRaises <;> cases rollbackRaises <;> decide

/-- Witness for C3 at concrete finaliser behaviour: a clean commit closes
once; a clean rollback path starts with the rollback call. -/
theorem C3_witness :
    (dbExit true false false false).1.count ExitAction.close = 1
    ∧ (dbExit true true false true).1.count ExitAction.close = 0 :=
  ⟨(C3_amended_exit false false false).2.2.2.1 (by decide),
   (C3_amended_exit true false true).2.2.2.2.1 (by decide)⟩

theorem enterLoop_ok {E C : Type} (outcome : Nat → AttemptOutcome E C)
    (wait a r : Nat) (c : C) (h : outcome a = AttemptOutcome.ok c) :
    enterLoop outcome wait a (r + 1)
      = (EnterResult.conn c, [ConnAction.attemptConnect a]) := by
  simp [enterLoop, h]

theorem enterLoop_last_err {E C : Type} (outcome : Nat → AttemptOutcome E C)
    (wait a : Nat) (e : E) (h : outcome a = AttemptOutcome.operationalError e) :
    enterLoop outcome wait a 1 = (EnterResult.raised e, [ConnAction.attemptConnect a]) := by
  simp [enterLoop, h]

theorem enterLoop_step_err {E C : Type} (outcome : Nat → AttemptOutcome E C)
    (wait a r : Nat) (e : E) (h : outcome a = AttemptOutcome.operationalError e) :
    enterLoop outcome wait a (r + 2)
      = ((enterLoop outcome wait (a + 1) (r + 1)).1,
          ConnAction.attemptConnect a :: ConnAction.sleep wait ::
            (enterLoop outcome wait (a + 1) (r + 1)).2) := by
  rw [enterLoop.eq_2 outcome wait a (r + 1), h]

theorem enterLoop_attempts_le {E C : Type} (outcome : Nat → AttemptOutcome E C)
    (wait : Nat) : ∀ r a, countAttempts (enterLoop outcome wait a r).2 ≤ r := by
  intro r
  induction r with
  | zero => intro a; simp [enterLoop, countAttempts]
  | succ r ih =>
    intro a
    cases houtcome : outcome a with
    | ok c =>
      rw [enterLoop_ok outcome wait a r c houtcome]
      simp [countAttempts]
    | operationalError e =>
      cases r with
      | zero =>
        rw [enterLoop_last_err outcome wait a e houtcome]
        simp [countAttempts]
      | succ r2 =>
        rw [enterLoop_step_err outcome wait a r2 e houtcome]
        have := ih (a + 1)
        simp only [countAttempts]
        omega

theorem enterLoop_sleep_wait {E C : Type} (outcome : Nat → AttemptOutcome E C)
    (wait : Nat) : ∀ r a w,
      ConnAction.sleep w ∈ (enterLoop outcome wait a r).2 → w = wait := by
  intro r
  induction r with
  | zero => intro a w hmem; simp [enterLoop] at hmem
  | succ r ih =>
    intro a w hmem
    cases houtcome : outcome a with
    | ok c =>
      rw [enterLoop_ok outcome wait a r c houtcome] at hmem
      simp at hmem
    | operationalError e =>
      cases r with
      | zero =>
        rw [enterLoop_last_err outcome wait a e houtcome] at hmem
        simp at hmem
      | succ r2 =>
        rw [enterLoop_step_err outcome wait a r2 e houtcome] at hmem
        simp only [List.mem_cons] at hmem
        rcases hmem with h1 | h1 | h1
        · cases h1
        · cases h1; rfl
        · exact ih (a + 1) w h1

theorem enterLoop_first_success {E C : Type} (outcome : Nat → AttemptOutcome E C)
    (wait : Nat) (c : C) : ∀ d a r, outcome (a + d) = AttemptOutcome.ok c →
      (∀ j, a ≤ j → j < a + d → ∃ e, outcome j = AttemptOutcome.operationalError e) →
      d < r →
      (enterLoop outcome wait a r).1 = EnterResult.conn c
      ∧ countAttempts (enterLoop outcome wait a r).2 = d + 1
      ∧ countSleeps (enterLoop outcome wait a r).2 = d := by
  intro d
  induction d with
  | zero =>
    intro a r hok _ hdr
    cases r with
    | zero => omega
    | succ r2 =>
      rw [enterLoop_ok outcome wait a r2 c (by simpa using hok)]
      simp [countAttempts, countSleeps]
  | succ d ih =>
    intro a r hok hfail hdr
    obtain ⟨e, he⟩ := hfail a le_rfl (by omega)
    cases r with
    | zero => omega
    | succ r2 =>
      cases r2 with
      | zero => omega
      | succ r3 =>
        rw [enterLoop_step_err outcome wait a r3 e he]
        have hok2 : outcome (a + 1 + d) = AttemptOutcome.ok c := by
          have harith : a + 1 + d = a + (d + 1) := by omega
          rw [harith]; exact hok
        have hfail2 : ∀ j, a + 1 ≤ j → j < a + 1 + d →
            ∃ e2, outcome j = AttemptOutcome.operationalError e2 :=
          fun j hj1 hj2 => hfail j (by omega) (by omega)
        obtain ⟨h1, h2, h3⟩ := ih (a + 1) (r3 + 1) hok2 hfail2 (by omega)
        refine ⟨h1, ?_, ?_⟩ <;> simp only [countAttempts, countSleeps] <;> omega

theorem enterLoop_all_fail {E C : Type} (outcome : Nat → AttemptOutcome E C)
    (wait : Nat) : ∀ r a, 0 < r →
      (∀ j, a ≤ j → j < a + r → ∃ e, outcome j = AttemptOutcome.operationalError e) →
      ∃ e, outcome (a + r - 1) = AttemptOutcome.operationalError e
        ∧ (enterLoop outcome wait a r).1 = EnterResult.raised e
        ∧ countAttempts (enterLoop outcome wait a r).2 = r
        ∧ countSleeps (enterLoop outcome wait a r).2 = r - 1 := by
  intro r
  induction r with
  | zero => intro a h0; omega
  | succ r ih =>
    intro a _ hfail
    obtain ⟨e, he⟩ := hfail a le_rfl (by omega)
    cases r with
    | zero =>
      refine ⟨e, by simpa using he, ?_⟩
      rw [enterLoop_last_err outcome wait a e he]
      simp [countAttempts, countSleeps]
    | succ r2 =>
      obtain ⟨e2, he2, hres, hca, hcs⟩ := ih (a + 1) (by omega)
        (fun j hj1 hj2 => hfail j (by omega) (by omega))
      rw [enterLoop_step_err outcome wait a r2 e he]
      refine ⟨e2, ?_, by simpa using hres, ?_, ?_⟩
      · have harith : a + (r2 + 1 + 1) - 1 = a + 1 + (r2 + 1) - 1 := by omega
        rw [harith]; exact he2
      · simp only [countAttempts]; omega
      · simp only [countSleeps, countAttempts]; omega

/-- C7: `DatabaseConnection.__enter__` makes at most `max_retries`
connection attempts, every sleep between attempts lasts `wait_seconds`;
when the first success comes at attempt `k ≤ max_retries` the scope
returns that connection (after `k` attempts and `k - 1` sleeps) without
surfacing the earlier failures; when all `max_retries` attempts fail, the
`OperationalError` of the final attempt propagates. -/
theorem C7_enter_retries {E C : Type} (max_retries wait_seconds : Nat)
    (outcome : Nat → AttemptOutcome E C) (hmax : 1 ≤ max_retries) :
    countAttempts (dbEnter (max_retries : Int) wait_seconds outcome).2 ≤ max_retries
    ∧ (∀ w, ConnAction.sleep w ∈ (dbEnter (max_retries : Int) wait_seconds outcome).2 →
        w = wait_seconds)
    ∧ (∀ (k : Nat) (c : C), 1 ≤ k → k ≤ max_retries →
        outcome k = AttemptOutcome.ok c →
        (∀ j, 1 ≤ j → j < k → ∃ e, outcome j = AttemptOutcome.operationalError e) →
        (dbEnter (max_retries : Int) wait_seconds outcome).1 = EnterResult.conn c
        ∧ countAttempts (dbEnter (max_retries : Int) wait_seconds outcome).2 = k
        ∧ countSleeps (dbEnter (max_retries : Int) wait_seconds outcome).2 = k - 1)
    ∧ ((∀ j, 1 ≤ j → j ≤ max_retries →
          ∃ e, outcome j = AttemptOutcome.operationalError e) →
        ∃ e, outcome max_retries = AttemptOutcome.operationalError e
          ∧ (dbEnter (max_retries : Int) wait_seconds outcome).1 = EnterResult.raised e
          ∧ countAttempts (dbEnter (max_retries : Int) wait_seconds outcome).2
            = max_retries) := by
  have htn : ((max_retries : Int)).toNat = max_retries := Int.toNat_natCast max_retries
  refine ⟨?_, ?_, ?_, ?_⟩
  · simpa [dbEnter, htn] using enterLoop_attempts_le outcome wait_seconds max_retries 1
  · intro w hw
    rw [dbEnter, htn] at hw
    exact enterLoop_sleep_wait outcome wait_seconds max_retries 1 w hw
  · intro k c hk1 hkm hok hfail
    have hok2 : outcome (1 + (k - 1)) = AttemptOutcome.ok c := by
      have harith : 1 + (k - 1) = k := by omega
      rw [harith]; exact hok
    have hfail2 : ∀ j, 1 ≤ j → j < 1 + (k - 1) →
        ∃ e, outcome j = AttemptOutcome.operationalError e :=
      fun j hj1 hj2 => hfail j hj1 (by omega)
    obtain ⟨h1, h2, h3⟩ := enterLoop_first_success outcome wait_seconds c (k - 1) 1
      max_retries hok2 hfail2 (by omega)
    rw [dbEnter, htn]
    refine ⟨h1, by omega, by omega⟩
  · intro hfail
    obtain ⟨e, he, hres, hca, _⟩ := enterLoop_all_fail outcome wait_seconds max_retries 1
      (by omega) (fun j hj1 hj2 => hfail j hj1 (by omega))
    rw [dbEnter, htn]
    exact ⟨e, by simpa [Nat.add_comm] using he, hres, hca⟩

/-- Witness for C7 at the spec's scenario: two `OperationalError`s then a
success with `max_retries = 3` yields the connection after exactly three
attempts and two sleeps. -/
theorem C7_witness :
    (dbEnter (3 : Int) 2
        (fun n => if n ≤ 2 then AttemptOutcome.operationalError ()
          else AttemptOutcome.ok "conn")).1 = EnterResult.conn "conn"
    ∧ countAttempts (dbEnter (3 : Int) 2
        (fun n => if n ≤ 2 then AttemptOutcome.operationalError ()
          else AttemptOutcome.ok "conn")).2 = 3
    ∧ countSleeps (dbEnter (3 : Int) 2
        (fun n => if n ≤ 2 then AttemptOutcome.operationalError ()
          else AttemptOutcome.ok "conn")).2 = 2 := by
  have h := (C7_enter_retries (E := Unit) (C := String) 3 2
    (fun n => if n ≤ 2 then AttemptOutcome.operationalError ()
      else AttemptOutcome.ok "conn") (by decide)).2.2.1 3 "conn" (by decide) (by decide)
    (by decide)
    (by
      intro j h1 h2
      have hj : j = 1 ∨ j = 2 := by omega
      rcases hj with rfl | rfl <;> exact ⟨(), rfl⟩)
  exact ⟨h.1, h.2.1, h.2.2⟩

/-- C10: constructing the scope with `max_retries < 1` makes
`range(1, max_retries + 1)` empty, so `__enter__` performs zero connection
attempts and falls through returning Python's `None` — no connection and
no error. -/
theorem C10_enter_none_when_no_retries {E C : Type} (max_retries : Int)
    (h : max_retries < 1) (wait_seconds : Nat)
    (outcome : Nat → AttemptOutcome E C) :
    dbEnter max_retries wait_seconds outcome = (EnterResult.noneValue, [])
    ∧ countAttempts (dbEnter max_retries wait_seconds outcome).2 = 0 := by
  have htn : max_retries.toNat = 0 := Int.toNat_of_nonpos (by omega)
  constructor
  · rw [dbEnter, htn]; rfl
  · rw [dbEnter, htn]; rfl

/-- Witness for C10 at `max_retries = 0` and `max_retries = -2`: the scope
yields `None` with an empty action trace. -/
theorem C10_witness :
    dbEnter (0 : Int) 2 (fun _ => (AttemptOutcome.ok () : AttemptOutcome Unit Unit))
      = (EnterResult.noneValue, [])
    ∧ dbEnter (-2 : Int) 5
        (fun _ => (AttemptOutcome.operationalError "down" : AttemptOutcome String Unit))
      = (EnterResult.noneValue, []) :=
  ⟨(C10_enter_none_when_no_retries (E := Unit) (C := Unit) 0 (by decide) 2
      (fun _ => AttemptOutcome.ok ())).1,
   (C10_enter_none_when_no_retries (E := String) (C := Unit) (-2) (by decide) 5
      (fun _ => AttemptOutcome.operationalError "down")).1⟩

/-! ## Claim theorems: level extraction -/

theorem mapOption_some (f : α → Option β) :
    ∀ (l : List α) (res : List β), mapOption f l = some res →
      res.length = l.length ∧ ∀ (i : Nat), res[i]? = l[i]?.bind f := by
  intro l
  induction l with
  | nil =>
    intro res h
    simp only [mapOption, Option.some_inj] at h
    subst h
    simp
  | cons a as ih =>
    intro res h
    simp only [mapOption] at h
    cases hfa : f a with
    | none => rw [hfa] at h; simp at h
    | some b =>
      rw [hfa] at h
      cases hrec : mapOption f as with
      | none => rw [hrec] at h; simp at h
      | some bs =>
        rw [hrec] at h
        simp only [Option.some_inj] at h
        subst h
        obtain ⟨hlen, hidx⟩ := ih bs hrec
        refine ⟨by simp [hlen], ?_⟩
        intro i
        cases i with
        | zero => simp [hfa]
        | succ j => simpa using hidx j

theorem mapOption_none (f : α → Option β) :
    ∀ l : List α, (∃ x ∈ l, f x = none) → mapOption f l = none := by
  intro l
  induction l with
  | nil => rintro ⟨x, hx, _⟩; cases hx
  | cons a as ih =>
    rintro ⟨x, hx, hfx⟩
    simp only [mapOption]
    rcases List.mem_cons.mp hx with rfl | hmem
    · rw [hfx]
    · rw [ih ⟨x, hmem, hfx⟩]
      cases f a <;> rfl

theorem mapOption_eq_none (f : α → Option β) :
    ∀ l : List α, mapOption f l = none → ∃ x ∈ l, f x = none := by
  intro l
  induction l with
  | nil => intro h; simp [mapOption] at h
  | cons a as ih =>
    intro h
    simp only [mapOption] at h
    cases hfa : f a with
    | none => exact ⟨a, List.mem_cons_self a as, hfa⟩
    | some b =>
      rw [hfa] at h
      cases hrec : mapOption f as with
      | none =>
        obtain ⟨x, hx, hfx⟩ := ih hrec
        exact ⟨x, List.mem_cons_of_mem a hx, hfx⟩
      | some bs => rw [hrec] at h; simp at h

/-- C5 (counterexample): in the batch `["calendar-date-3", "not-a-level"]`
the second label's parse failure zeroes the first row as well — the rows
are not isolated from each other. -/
theorem C5_counterexample :
    parseLevelLabel "calendar-date-3" = some 3
    ∧ (clean_importance_level ["calendar-date-3", "not-a-level"])[0]? ≠ some 3
    ∧ clean_importance_level ["calendar-date-3", "not-a-level"] = [0, 0] := by
  decide

/-- C5 (amended): the per-label extraction takes the piece after the last
occurrence of `"calendar-date-"` (a bare digit string parses directly);
when every label of the batch parses, each row receives its own parsed
level, but when any label fails to parse, every row of the batch defaults
to level `0` — without raising, yet not row-isolated. -/
theorem C5_amended_level_extraction (labels : List String) :
    (clean_importance_level labels).length = labels.length
    ∧ ((∀ l ∈ labels, (parseLevelLabel l).isSome = true) →
        ∀ (i : Nat), (clean_importance_level labels)[i]? = labels[i]?.bind parseLevelLabel)
    ∧ ((∃ l ∈ labels, parseLevelLabel l = none) →
        ∀ (i : Nat) (l : String), labels[i]? = some l →
          (clean_importance_level labels)[i]? = some 0)
    ∧ parseLevelLabel "calendar-date-3" = some 3
    ∧ parseLevelLabel "calendar-date-1" = some 1
    ∧ parseLevelLabel "2" = some 2 := by
  refine ⟨?_, ?_, ?_, by decide, by decide, by decide⟩
  · cases hm : mapOption parseLevelLabel labels with
    | none => simp [clean_importance_level, hm]
    | some res =>
      have := (mapOption_some parseLevelLabel labels res hm).1
      simp [clean_importance_level, hm, this]
  · intro hall i
    cases hm : mapOption parseLevelLabel labels with
    | none =>
      obtain ⟨x, hx, hfx⟩ := mapOption_eq_none parseLevelLabel labels hm
      have := hall x hx
      rw [hfx] at this
      simp at this
    | some res =>
      have := (mapOption_some parseLevelLabel labels res hm).2 i
      simpa [clean_importance_level, hm] using this
  · intro hnone i l hi
    have hm := mapOption_none parseLevelLabel labels hnone
    have hlt : i < labels.length := by
      by_contra hge
      rw [List.getElem?_eq_none (by omega)] at hi
      cases hi
    simp [clean_importance_level, hm, List.getElem?_map, hi, hlt]

/-- Witness for C5 at concrete batches: an all-parseable batch keeps row 0
at level 3; adding an unparseable label zeroes row 0. -/
theorem C5_witness :
    (clean_importance_level ["calendar-date-3", "calendar-date-1"])[0]? = some 3
    ∧ (clean_importance_level ["calendar-date-3", "unparseable"])[0]? = some 0 := by
  constructor
  · have h := (C5_amended_level_extraction ["calendar-date-3", "calendar-date-1"]).2.1
      (by decide) 0
    rw [h]; decide
  · exact (C5_amended_level_extraction ["calendar-date-3", "unparseable"]).2.2.1
      ⟨"unparseable", by decide, by decide⟩ 0 "calendar-date-3" (by decide)

/-! ## Claim theorems: row rejection -/

theorem clean_importance_level_length (labels : List String) :
    (clean_importance_level labels).length = labels.length := by
  cases hm : mapOption parseLevelLabel labels with
  | none => simp [clean_importance_level, hm]
  | some res =>
    have := (mapOption_some parseLevelLabel labels res hm).1
    simp [clean_importance_level, hm, this]

theorem parse_datetime_columns_length (now : EventDateTime) (rows : List RawEvent) :
    (parse_datetime_columns now rows).length = rows.length := by
  cases hm : mapOption (fun r => parse_date r.date) rows with
  | none => simp [parse_datetime_columns, hm]
  | some dates =>
    have := (mapOption_some (fun r => parse_date r.date) rows dates hm).1
    simp [parse_datetime_columns, hm, List.length_zipWith, this]

theorem assemble_filter_summaries (rows : List RawEvent) :
    ∀ (levels : List Int) (dts : List EventDateTime),
      levels.length = rows.length → dts.length = rows.length →
      (remove_invalid_rows
        (List.zipWith (fun r (p : Int × EventDateTime) =>
            ({ date := r.date, time := r.time, country := r.country,
               level := p.1, summary := r.summary, event_datetime := p.2 } : PEvent))
          rows (levels.zip dts))).map (fun e => e.summary)
      = (rows.map (fun r => r.summary)).filter
          (fun s => !(trimChars s.toList).isEmpty) := by
  induction rows with
  | nil => intro levels dts _ _; rfl
  | cons r rs ih =>
    intro levels dts hl hd
    cases levels with
    | nil => simp at hl
    | cons l ls =>
      cases dts with
      | nil => simp at hd
      | cons d ds =>
        have hl2 : ls.length = rs.length := by simpa using hl
        have hd2 : ds.length = rs.length := by simpa using hd
        have ihr := ih ls ds hl2 hd2
        simp only [List.zip_cons_cons, List.zipWith_cons_cons, remove_invalid_rows,
          List.filter_cons, List.map_cons] at ihr ⊢
        by_cases hq : trimChars r.summary.data = [] <;> simp [hq] <;> exact ihr

/-- C6 (counterexample): a batch of 3 tuples of which exactly one has an
unconstructible datetime (`"NotADate"`) yields 3 output events, not 2 —
the bad row is not dropped; instead the whole-batch fallback stamps every
row with the current time. -/
theorem C6_counterexample :
    parse_date "NotADate" = none
    ∧ (clean_and_transform ⟨2026, 3, 1, 12, 0⟩
        [⟨"Monday February 16 2026", "8:30 AM", "US", "calendar-date-3", "GDP Growth Rate"⟩,
         ⟨"NotADate", "8:30 AM", "US", "calendar-date-2", "Initial Jobless Claims"⟩,
         ⟨"Tuesday February 17 2026", "", "US", "calendar-date-1", "Core PCE Price Index MoM"⟩]).length
      = 3
    ∧ (clean_and_transform ⟨2026, 3, 1, 12, 0⟩
        [⟨"Monday February 16 2026", "8:30 AM", "US", "calendar-date-3", "GDP Growth Rate"⟩,
         ⟨"NotADate", "8:30 AM", "US", "calendar-date-2", "Initial Jobless Claims"⟩,
         ⟨"Tuesday February 17 2026", "", "US", "calendar-date-1", "Core PCE Price Index MoM"⟩])[0]?.map
        (fun e => e.event_datetime) = some ⟨2026, 3, 1, 12, 0⟩ := by
  decide

/-- C6 (amended): the normalizer drops exactly the rows whose summary is
empty or whitespace-only, keeping all others in input order; a row whose
datetime fails to construct is not dropped — any date-parse failure makes
the fallback assign the current timestamp to every row of the batch — and
a batch of 3 tuples of which one has an empty summary yields exactly 2
output events. -/
theorem C6_amended_row_rejection (now : EventDateTime) (rows : List RawEvent) :
    (clean_and_transform now rows).map (fun e => e.summary)
      = (rows.map (fun r => r.summary)).filter
          (fun s => !(trimChars s.toList).isEmpty)
    ∧ (clean_and_transform ⟨2026, 3, 1, 12, 0⟩
        [⟨"Monday February 16 2026", "8:30 AM", "US", "calendar-date-3", "GDP Growth Rate"⟩,
         ⟨"Monday February 16 2026", "9:30 AM", "US", "calendar-date-2", ""⟩,
         ⟨"Tuesday February 17 2026", "", "US", "calendar-date-1", "Core PCE Price Index MoM"⟩]).length
      = 2 := by
  constructor
  · by_cases hrows : rows.isEmpty
    · cases rows with
      | nil => rfl
      | cons r rs => simp at hrows
    · have hlev := clean_importance_level_length (rows.map (fun r => r.level))
      rw [List.length_map] at hlev
      have hdts := parse_datetime_columns_length now rows
      simp only [clean_and_transform, hrows, if_false]
      exact assemble_filter_summaries rows _ _ hlev hdts
  · decide

/-! ## Claim theorems: sync reconciler -/


theorem mark_store_getElem (store : List Row) (dt : Nat) (summ gid : String)
    (i : Nat) (r : Row) (hi : store[i]? = some r) :
    ∃ r2, (mark_event_as_synced store dt summ gid).1[i]? = some r2
      ∧ (r.gcal_event_id.isSome = true → r2.gcal_event_id.isSome = true)
      ∧ (r.is_synced = true → r2.is_synced = true) := by
  simp only [mark_event_as_synced, List.getElem?_map, hi, Option.map_some]
  refine ⟨_, rfl, ?_, ?_⟩ <;>
    by_cases hc : (r.event_datetime == dt && r.summary == summ) = true <;>
    simp [hc]

theorem syncStep_preserves (create : Row → CreateOutcome) (st : SyncState)
    (e : Row) (i : Nat) (r : Row) (hi : st.store[i]? = some r) :
    ∃ r2, (syncStep create st e).store[i]? = some r2
      ∧ (r.gcal_event_id.isSome = true → r2.gcal_event_id.isSome = true)
      ∧ (r.is_synced = true → r2.is_synced = true) := by
  cases hce : create e with
  | raised =>
    have hst : (syncStep create st e).store = st.store := by
      unfold syncStep; rw [hce]
    exact ⟨r, by rw [hst]; exact hi, fun h => h, fun h => h⟩
  | ok gid =>
    by_cases ht : pyTruthy gid = true
    · obtain ⟨r2, h2, himp1, himp2⟩ :=
        mark_store_getElem st.store e.event_datetime e.summary (gid.getD "") i r hi
      have hst : (syncStep create st e).store
          = (mark_event_as_synced st.store e.event_datetime e.summary (gid.getD "")).1 := by
        unfold syncStep
        rw [hce]
        simp only [ht, if_true]
        split <;> rfl
      exact ⟨r2, by rw [hst]; exact h2, himp1, himp2⟩
    · have hst : (syncStep create st e).store = st.store := by
        unfold syncStep
        rw [hce]
        simp [ht]
      exact ⟨r, by rw [hst]; exact hi, fun h => h, fun h => h⟩

theorem syncFold_preserves (create : Row → CreateOutcome) (events : List Row) :
    ∀ (st : SyncState) (i : Nat) (r : Row), st.store[i]? = some r →
      ∃ r2, (events.foldl (syncStep create) st).store[i]? = some r2
        ∧ (r.gcal_event_id.isSome = true → r2.gcal_event_id.isSome = true)
        ∧ (r.is_synced = true → r2.is_synced = true) := by
  induction events with
  | nil => intro st i r hi; exact ⟨r, hi, fun h => h, fun h => h⟩
  | cons e es ih =>
    intro st i r hi
    obtain ⟨r2, h2, hi1, hi2⟩ := syncStep_preserves create st e i r hi
    obtain ⟨r3, h3, hj1, hj2⟩ := ih (syncStep create st e) i r2 h2
    exact ⟨r3, h3, fun h => hj1 (hi1 h), fun h => hj2 (hi2 h)⟩

/-- C8 (counterexample): `_sync_to_calendar` does not return an aggregate
of attempted/succeeded/failed counts — a run with one failed event out of
three and a run with two failed events out of three both return the bare
boolean `False`, while their (logged-only) success counts differ. -/
theorem C8_counterexample :
    (sync_to_calendar createFailSecond demoStore 3).2
      = (sync_to_calendar createFailSecondThird demoStore 3).2
    ∧ (sync_to_calendar createFailSecond demoStore 3).1.synced_count = 2
    ∧ (sync_to_calendar createFailSecondThird demoStore 3).1.synced_count = 1 := by
  decide

/-- C8 (amended): one event's failure never aborts the batch — after a
raising create call the loop continues with the remaining events on an
unchanged store, only clearing `sync_success` — and never rolls back
previously synced rows (a row whose `gcal_event_id` is set keeps a set
`gcal_event_id` through any further processing); the run returns only the
boolean `sync_success` (`False` when any event failed; counts are logged,
not returned): in the 3-event scenario whose second create call raises, it
returns `False` with internal `synced_count = 2`, and the 1st and 3rd rows
end up marked synced while the 2nd stays unsynced. -/
theorem C8_amended_sync_isolation :
    (∀ (create : Row → CreateOutcome) (store : List Row) (xs ys : List Row) (e : Row),
      create e = CreateOutcome.raised →
      syncLoop create store (xs ++ e :: ys)
        = ys.foldl (syncStep create)
            { syncLoop create store xs with sync_success := false })
    ∧ (∀ (create : Row → CreateOutcome) (store events : List Row) (i : Nat) (r : Row),
        store[i]? = some r → r.gcal_event_id.isSome = true →
        ∃ r2, (syncLoop create store events).store[i]? = some r2
          ∧ r2.gcal_event_id.isSome = true)
    ∧ (sync_to_calendar createFailSecond demoStore 3).2 = false
    ∧ (sync_to_calendar createFailSecond demoStore 3).1.synced_count = 2
    ∧ (sync_to_calendar createFailSecond demoStore 3).1.store
      = [⟨1, "E1", "US", 3, some "gid", true⟩, ⟨2, "E2", "US", 3, none, false⟩,
         ⟨3, "E3", "US", 3, some "gid", true⟩] := by
  refine ⟨?_, ?_, by decide, by decide, by decide⟩
  · intro create store xs ys e he
    simp only [syncLoop, List.foldl_append, List.foldl_cons]
    congr 1
    unfold syncStep
    rw [he]
  · intro create store events i r hi hs
    obtain ⟨r2, h2, hj1, _⟩ := syncFold_preserves create events ⟨store, true, 0⟩ i r hi
    exact ⟨r2, h2, hj1 hs⟩

/-- Witness for C8 at concrete inputs: the failing second event of the
scenario leaves the loop running on the remaining events, and an already
synced stored row keeps its external id through a full run. -/
theorem C8_witness :
    syncLoop createFailSecond demoStore
        ([⟨1, "E1", "US", 3, none, false⟩] ++ ⟨2, "E2", "US", 3, none, false⟩ ::
          [⟨3, "E3", "US", 3, none, false⟩])
      = [⟨3, "E3", "US", 3, none, false⟩].foldl (syncStep createFailSecond)
          { syncLoop createFailSecond demoStore [⟨1, "E1", "US", 3, none, false⟩] with
            sync_success := false }
    ∧ ∃ r2, (syncLoop createFailSecond
          [⟨5, "Done", "US", 3, some "g0", true⟩] demoStore).store[0]? = some r2
        ∧ r2.gcal_event_id.isSome = true :=
  ⟨C8_amended_sync_isolation.1 createFailSecond demoStore
      [⟨1, "E1", "US", 3, none, false⟩] [⟨3, "E3", "US", 3, none, false⟩]
      ⟨2, "E2", "US", 3, none, false⟩ (by decide),
   C8_amended_sync_isolation.2.1 createFailSecond
      [⟨5, "Done", "US", 3, some "g0", true⟩] demoStore 0
      ⟨5, "Done", "US", 3, some "g0", true⟩ (by decide) (by decide)⟩
